import Mathlib

/-!
# Verification of `altair_saver._utils`

A shallow embedding of the format-negotiation helpers of `altair_saver`
(`src/altair_saver/_utils.py`) together with proofs of the specified
properties.

Python strings are modelled as `List Char` (`PyStr`), with the string
primitives the source uses (`startswith`, `endswith`, `in`, `split(".")`)
defined below with Python's semantics.  Python exceptions are modelled with
`Except`; `raise ValueError(...)` becomes `Except.error (PyError.valueError ...)`.

The file has two parts: first the definitions embedding the source, then the
lemmas and theorems about them.
-/

set_option maxRecDepth 4000

/-! ## Part 1: definitions -/

/-- A Python `str`, modelled as its list of characters. -/
abbrev PyStr := List Char

/-- Embed a Lean string literal as a `PyStr`. -/
def pys (s : String) : PyStr := s.data

/-- A Python byte string (`bytes`), modelled as a list of byte values. -/
abbrev PyBytes := List Nat

/-- Python exceptions raised by the embedded functions. -/
inductive PyError where
  | valueError (msg : PyStr)
  deriving DecidableEq

/-- Python `s.startswith(p)`: `pyStartsWith s p = true` iff `p` is an initial
segment of `s`.  Defined by direct recursion so that it reduces on literals. -/
def pyStartsWith : PyStr → PyStr → Bool
  | _, [] => true
  | [], _ :: _ => false
  | c :: s, q :: p => (c == q) && pyStartsWith s p

/-- Python `s.endswith(p)`. -/
def pyEndsWith (s p : PyStr) : Bool :=
  pyStartsWith s.reverse p.reverse

/-- Python `sub in s` (substring containment): `pyContains s sub`. -/
def pyContains : PyStr → PyStr → Bool
  | [], sub => pyStartsWith [] sub
  | c :: rest, sub => pyStartsWith (c :: rest) sub || pyContains rest sub

/-- Python `s.split(sep)` for a one-character separator `sep`:
splitting an empty string yields `[[]]`, matching `"".split(".") == [""]`. -/
def pySplitChar (sep : Char) : PyStr → List PyStr
  | [] => [[]]
  | c :: rest =>
    if c == sep then [] :: pySplitChar sep rest
    else
      match pySplitChar sep rest with
      | [] => [[c]]
      | hd :: tl => (c :: hd) :: tl

/-- `Except.error` discriminator: `true` exactly when the computation raised. -/
def isErr {ε α : Type} : Except ε α → Bool
  | .error _ => true
  | .ok _ => false

/-- `_utils.fmt_to_mimetype(fmt, vegalite_version, vega_version)`:
get a mimetype given a format string.  The dialect branches embed
`version.split(".")[0]`; `pySplitChar` never returns `[]`, so `headD []`
is exactly Python's `[0]` indexing there. -/
def fmt_to_mimetype (fmt vegalite_version vega_version : PyStr) :
    Except PyError PyStr :=
  if fmt = pys "vega-lite" then
    .ok (pys "application/vnd.vegalite.v" ++
      (pySplitChar '.' vegalite_version).headD [] ++ pys "+json")
  else if fmt = pys "vega" then
    .ok (pys "application/vnd.vega.v" ++
      (pySplitChar '.' vega_version).headD [] ++ pys "+json")
  else if fmt = pys "pdf" then .ok (pys "application/pdf")
  else if fmt = pys "html" then .ok (pys "text/html")
  else if fmt = pys "png" then .ok (pys "image/png")
  else if fmt = pys "svg" then .ok (pys "image/svg+xml")
  else .error (.valueError (pys "Unrecognized fmt=" ++ fmt))

/-- `_utils.mimetype_to_fmt(mimetype)`: get a format string given a mimetype. -/
def mimetype_to_fmt (mimetype : PyStr) : Except PyError PyStr :=
  if pyStartsWith mimetype (pys "application/vnd.vegalite") then .ok (pys "vega-lite")
  else if pyStartsWith mimetype (pys "application/vnd.vega") then .ok (pys "vega")
  else if mimetype = pys "application/pdf" then .ok (pys "pdf")
  else if mimetype = pys "text/html" then .ok (pys "html")
  else if mimetype = pys "image/png" then .ok (pys "png")
  else if mimetype = pys "image/svg+xml" then .ok (pys "svg")
  else .error (.valueError (pys "Unrecognized mimetype=" ++ mimetype))

/-- The six formats recognized by the registry. -/
def sixFormats : List PyStr :=
  [pys "vega-lite", pys "vega", pys "svg", pys "png", pys "pdf", pys "html"]

/-- A JSON value, as stored in a parsed vega / vega-lite spec. -/
inductive JSON where
  | str (s : PyStr)
  | num (n : Int)
  | bool (b : Bool)
  | null
  | arr (xs : List JSON)
  | obj (kvs : List (PyStr × JSON))

/-- A Python dict with string keys, as an association list (keys unique). -/
abbrev JSONDict := List (PyStr × JSON)

/-- The vega-only top-level keys probed by `infer_mode_from_spec`, in the
source's order. -/
def vegaOnlyKeys : List PyStr :=
  [pys "axes", pys "legends", pys "marks", pys "projections",
   pys "scales", pys "signals"]

/-- `_utils.infer_mode_from_spec(spec)`: use the `$schema` value if it is a
string matching a dialect URL fragment; otherwise probe the vega-only
top-level keys; otherwise default to `"vega-lite"`.  A non-string `$schema`
falls through (the source's `pass`). -/
def infer_mode_from_spec (spec : JSONDict) : PyStr :=
  let fromSchema : Option PyStr :=
    match spec.lookup (pys "$schema") with
    | some (JSON.str schema) =>
        if pyContains schema (pys "/vega-lite/") then some (pys "vega-lite")
        else if pyContains schema (pys "/vega/") then some (pys "vega")
        else none
    | _ => none
  match fromSchema with
  | some mode => mode
  | none =>
      if vegaOnlyKeys.any (fun key => (spec.lookup key).isSome) then pys "vega"
      else pys "vega-lite"

/-- Modelled from the claim's words, for comparison with the source
definition: `$schema` string containing `/vega-lite/` wins, then `/vega/`,
then (no schema, schema not a string, or neither substring) any vega-only
key present gives `"vega"`, else `"vega-lite"`. -/
def inferModeClaim (spec : JSONDict) : PyStr :=
  let probe : PyStr :=
    if vegaOnlyKeys.any (fun key => (spec.lookup key).isSome) then pys "vega"
    else pys "vega-lite"
  match spec.lookup (pys "$schema") with
  | some (JSON.str schema) =>
      if pyContains schema (pys "/vega-lite/") then pys "vega-lite"
      else if pyContains schema (pys "/vega/") then pys "vega"
      else probe
  | some _ => probe
  | none => probe

/-- The `cmd` argument of `check_output_with_stderr`: `Union[str, List[str]]`. -/
inductive Cmd where
  | str (s : PyStr)
  | args (l : List PyStr)

/-- The observable outcome of one external process execution: captured
standard output, captured standard error, and the exit code. -/
structure ProcessResult where
  stdout : PyBytes
  stderr : PyBytes
  returncode : Int

/-- `subprocess.CalledProcessError`, as raised by `subprocess.run` with
`check=True`: carries the exit code, the command, and both captured streams. -/
structure CalledProcessError where
  returncode : Int
  cmd : Cmd
  output : PyBytes
  stderr : PyBytes

/-- `_utils.check_output_with_stderr(cmd, shell, input)`: run a command,
relaying the process's stderr to `sys.stderr`.  The process's behaviour is an
oracle parameter `proc`; the returned pair is the list of writes made to
`sys.stderr` and the call's result.  A nonempty captured stderr is written
out whether or not the exit code is zero (`if err.stderr:` / `if ps.stderr:`);
a non-zero exit re-raises the `CalledProcessError` from `check=True`. -/
def check_output_with_stderr (cmd : Cmd) (_shell : Bool)
    (_input : Option PyBytes) (proc : ProcessResult) :
    List PyBytes × Except CalledProcessError PyBytes :=
  if proc.returncode ≠ 0 then
    let err : CalledProcessError :=
      ⟨proc.returncode, cmd, proc.stdout, proc.stderr⟩
    if proc.stderr ≠ [] then ([proc.stderr], .error err)
    else ([], .error err)
  else
    if proc.stderr ≠ [] then ([proc.stderr], .ok proc.stdout)
    else ([], .ok proc.stdout)

/-- The filesystem visible to `temporary_filename`, as the set of existing
file names (each name appears at most once). -/
abbrev FileSystem := List PyStr

/-- `_utils.temporary_filename(**kwargs)` used as a `with` block:
`tempfile.mkstemp` creates the file `fresh`, the block `body` runs with the
file name (transforming the filesystem and returning normally or raising),
and the `finally` clause removes the file if it still exists.  `body` is
universally quantified, so it may itself delete or recreate the file, create
other files, or raise any exception. -/
def temporary_filename {α : Type} (fs : FileSystem) (fresh : PyStr)
    (body : PyStr → FileSystem → FileSystem × Except PyError α) :
    FileSystem × Except PyError α :=
  match body fresh (fresh :: fs) with
  | (fs2, res) =>
      (if fresh ∈ fs2 then fs2.filter (fun f => f != fresh) else fs2, res)

/-- The `fp` argument of `extract_format`: either a filename string or a
file-like object whose `name` attribute may be absent or `None`
(`getattr(fp, "name", None)`). -/
inductive FileLike where
  | path (s : PyStr)
  | stream (name : Option PyStr)

/-- `_utils.extract_format(fp)`: extract the output format from a file or
filename. -/
def extract_format (fp : FileLike) : Except PyError PyStr :=
  let filename : Option PyStr :=
    match fp with
    | .path s => some s
    | .stream name => name
  match filename with
  | none => .error (.valueError (pys "Cannot infer format from fp"))
  | some filename =>
      if pyEndsWith filename (pys ".vg.json") then .ok (pys "vega")
      else if pyEndsWith filename (pys ".json") then .ok (pys "vega-lite")
      else .ok ((pySplitChar '.' filename).getLastD [])

/-- Modelled from the claim's words: `.vg.json` maps to `vega`, any other
`.json` to `vega-lite`, and any other filename to the substring after its
final `.` (the last piece of the `.`-split). -/
def formatFromFilenameClaim (fn : PyStr) : PyStr :=
  if pyEndsWith fn (pys ".vg.json") then pys "vega"
  else if pyEndsWith fn (pys ".json") then pys "vega-lite"
  else (pySplitChar '.' fn).getLastD []

/-- The class of an already-open stream, as tested by the source's
`isinstance` checks: an `io.TextIOBase` instance, an `io.BufferedIOBase`
instance, or neither (e.g. a raw byte stream or an arbitrary writable
object). -/
inductive StreamClass where
  | textIOBase
  | bufferedIOBase
  | other
  deriving DecidableEq

/-- The `fp` argument of `maybe_open`: a destination path string or an
already-open stream. -/
inductive MaybeOpenArg where
  | path (s : PyStr)
  | stream (cls : StreamClass)

/-- What `maybe_open` yields on success: a file newly opened at a path with
the requested mode, or the caller's stream passed through unchanged. -/
inductive OpenedIO where
  | opened (path : PyStr) (mode : PyStr)
  | given (cls : StreamClass)
  deriving DecidableEq

/-- `_utils.maybe_open(fp, mode)`: write to a string path or a file-like
object.  A path is opened with `open(fp, mode)`; a text stream with a binary
mode requested, or a buffered (binary) stream with a text mode requested, is
rejected; any other stream is yielded unchanged.  Python's `"b" in mode` is
`pyContains mode "b"`. -/
def maybe_open (fp : MaybeOpenArg) (mode : PyStr) : Except PyError OpenedIO :=
  match fp with
  | .path s => .ok (.opened s mode)
  | .stream cls =>
      if cls = .textIOBase ∧ pyContains mode (pys "b") = true then
        .error (.valueError (pys "File expected to be opened in binary mode."))
      else if cls = .bufferedIOBase ∧ ¬pyContains mode (pys "b") = true then
        .error (.valueError (pys "File expected to be opened in text mode"))
      else .ok (.given cls)

/-! ## Part 2: lemmas and theorems -/

/-! ### Helper lemmas -/

lemma startsWith_vegalite_of_vegalite_mt (m : PyStr) :
    pyStartsWith (pys "application/vnd.vegalite.v" ++ m ++ pys "+json")
      (pys "application/vnd.vegalite") = true := rfl

lemma not_startsWith_vegalite_of_vega_mt (m : PyStr) :
    pyStartsWith (pys "application/vnd.vega.v" ++ m ++ pys "+json")
      (pys "application/vnd.vegalite") = false := rfl

lemma startsWith_vega_of_vega_mt (m : PyStr) :
    pyStartsWith (pys "application/vnd.vega.v" ++ m ++ pys "+json")
      (pys "application/vnd.vega") = true := rfl

lemma fmt_eval_vegalite (vlv vv : PyStr) :
    fmt_to_mimetype (pys "vega-lite") vlv vv =
      .ok (pys "application/vnd.vegalite.v" ++
        (pySplitChar '.' vlv).headD [] ++ pys "+json") := rfl

lemma fmt_eval_vega (vlv vv : PyStr) :
    fmt_to_mimetype (pys "vega") vlv vv =
      .ok (pys "application/vnd.vega.v" ++
        (pySplitChar '.' vv).headD [] ++ pys "+json") := rfl

lemma fmt_eval_pdf (vlv vv : PyStr) :
    fmt_to_mimetype (pys "pdf") vlv vv = .ok (pys "application/pdf") := rfl

lemma fmt_eval_html (vlv vv : PyStr) :
    fmt_to_mimetype (pys "html") vlv vv = .ok (pys "text/html") := rfl

lemma fmt_eval_png (vlv vv : PyStr) :
    fmt_to_mimetype (pys "png") vlv vv = .ok (pys "image/png") := rfl

lemma fmt_eval_svg (vlv vv : PyStr) :
    fmt_to_mimetype (pys "svg") vlv vv = .ok (pys "image/svg+xml") := rfl

lemma mem_of_pyStartsWith {s p : PyStr} {c : Char}
    (h : pyStartsWith s p = true) (hc : c ∈ p) : c ∈ s := by
  induction s generalizing p with
  | nil =>
    cases p with
    | nil => cases hc
    | cons q p' => simp [pyStartsWith] at h
  | cons a s' ih =>
    cases p with
    | nil => cases hc
    | cons q p' =>
      rw [pyStartsWith, Bool.and_eq_true, beq_iff_eq] at h
      rcases List.mem_cons.mp hc with rfl | hmem
      · exact List.mem_cons.mpr (Or.inl h.1.symm)
      · exact List.mem_cons.mpr (Or.inr (ih h.2 hmem))

lemma mem_of_pyEndsWith {s p : PyStr} {c : Char}
    (h : pyEndsWith s p = true) (hc : c ∈ p) : c ∈ s := by
  have := mem_of_pyStartsWith (s := s.reverse) (p := p.reverse) h
    (List.mem_reverse.mpr hc)
  exact List.mem_reverse.mp this

lemma pySplitChar_of_not_mem {sep : Char} {s : PyStr} (h : sep ∉ s) :
    pySplitChar sep s = [s] := by
  induction s with
  | nil => rfl
  | cons c rest ih =>
    have hcs : (c == sep) = false := by
      simp only [List.mem_cons, not_or] at h
      exact beq_eq_false_iff_ne.mpr (Ne.symm h.1)
    rw [pySplitChar, hcs, if_neg (by simp),
      ih (fun hm => h (List.mem_cons.mpr (Or.inr hm)))]

/-! ### The claims -/

/-- C1: for each of the six recognized formats and any version strings,
`fmt_to_mimetype` followed by `mimetype_to_fmt` returns the original format. -/
theorem fmt_mimetype_roundtrip (fmt vlv vv m : PyStr)
    (hf : fmt ∈ sixFormats)
    (hm : fmt_to_mimetype fmt vlv vv = Except.ok m) :
    mimetype_to_fmt m = Except.ok fmt := by
  simp only [sixFormats, List.mem_cons, List.not_mem_nil, or_false] at hf
  rcases hf with rfl | rfl | rfl | rfl | rfl | rfl
  · rw [fmt_eval_vegalite] at hm
    injection hm with h
    subst h
    unfold mimetype_to_fmt
    rw [startsWith_vegalite_of_vegalite_mt]
    rfl
  · rw [fmt_eval_vega] at hm
    injection hm with h
    subst h
    unfold mimetype_to_fmt
    rw [not_startsWith_vegalite_of_vega_mt, startsWith_vega_of_vega_mt]
    rfl
  · rw [fmt_eval_svg] at hm
    injection hm with h
    subst h
    rfl
  · rw [fmt_eval_png] at hm
    injection hm with h
    subst h
    rfl
  · rw [fmt_eval_pdf] at hm
    injection hm with h
    subst h
    rfl
  · rw [fmt_eval_html] at hm
    injection hm with h
    subst h
    rfl

/-- C1 witness: the round-trip at format `vega`, versions `5.8.0` / `5.21.0`. -/
theorem fmt_mimetype_roundtrip_witness :
    mimetype_to_fmt (pys "application/vnd.vega.v5+json") = Except.ok (pys "vega") :=
  fmt_mimetype_roundtrip (pys "vega") (pys "5.8.0") (pys "5.21.0")
    (pys "application/vnd.vega.v5+json") (by decide) rfl

/-- C2: `infer_mode_from_spec` is total, returns only `"vega"` or
`"vega-lite"`, and computes exactly the priority order the claim states. -/
theorem infer_mode_from_spec_correct (spec : JSONDict) :
    infer_mode_from_spec spec = inferModeClaim spec ∧
    (infer_mode_from_spec spec = pys "vega" ∨
     infer_mode_from_spec spec = pys "vega-lite") := by
  unfold infer_mode_from_spec inferModeClaim
  rcases h : spec.lookup (pys "$schema") with _ | j
  · simp only []
    split_ifs <;> simp
  · cases j <;> simp only [] <;> split_ifs <;> simp

/-- C3: `fmt_to_mimetype` raises exactly when its format is outside the six
recognized formats, and `mimetype_to_fmt` raises exactly when its argument
neither starts with one of the two dialect MIME prefixes nor equals one of the
four fixed MIME strings; neither returns a silent default. -/
theorem registry_errors_iff_unrecognized (fmt vlv vv m : PyStr) :
    (isErr (fmt_to_mimetype fmt vlv vv) = true ↔ fmt ∉ sixFormats) ∧
    (isErr (mimetype_to_fmt m) = true ↔
      ¬(pyStartsWith m (pys "application/vnd.vegalite") = true ∨
        pyStartsWith m (pys "application/vnd.vega") = true ∨
        m = pys "application/pdf" ∨ m = pys "text/html" ∨
        m = pys "image/png" ∨ m = pys "image/svg+xml")) := by
  constructor
  · unfold fmt_to_mimetype
    split_ifs with h1 h2 h3 h4 h5 h6 <;>
      simp_all [isErr, sixFormats]
  · unfold mimetype_to_fmt
    split_ifs with h1 h2 h3 h4 h5 h6 <;>
      simp_all [isErr]

/-- C4: for version strings of the form `x.y.z`, the dialect MIME types embed
only the major component `x`. -/
theorem mimetype_major_version_only (x y z a b c vlv vv : PyStr)
    (hv : pySplitChar '.' vlv = [x, y, z])
    (hw : pySplitChar '.' vv = [a, b, c]) :
    fmt_to_mimetype (pys "vega-lite") vlv vv =
      Except.ok (pys "application/vnd.vegalite.v" ++ x ++ pys "+json") ∧
    fmt_to_mimetype (pys "vega") vlv vv =
      Except.ok (pys "application/vnd.vega.v" ++ a ++ pys "+json") := by
  rw [fmt_eval_vegalite, fmt_eval_vega, hv, hw]
  exact ⟨rfl, rfl⟩

/-- C4 witness: versions `5.8.1` and `5.21.0` yield `v5`-only MIME types. -/
theorem mimetype_major_version_only_witness :
    fmt_to_mimetype (pys "vega-lite") (pys "5.8.1") (pys "5.21.0") =
      Except.ok (pys "application/vnd.vegalite.v5+json") ∧
    fmt_to_mimetype (pys "vega") (pys "5.8.1") (pys "5.21.0") =
      Except.ok (pys "application/vnd.vega.v5+json") := by
  have h := mimetype_major_version_only (pys "5") (pys "8") (pys "1")
    (pys "5") (pys "21") (pys "0") (pys "5.8.1") (pys "5.21.0") rfl rfl
  exact ⟨h.1.trans (congrArg Except.ok (by decide)),
    h.2.trans (congrArg Except.ok (by decide))⟩

/-- C5: the captured diagnostic bytes are relayed to `sys.stderr` regardless
of the exit code; a non-zero exit yields an error carrying the command, the
exit status and the diagnostic text, and a zero exit returns stdout. -/
theorem check_output_stderr_relay (cmd : Cmd) (shell : Bool)
    (input : Option PyBytes) (proc : ProcessResult) :
    (check_output_with_stderr cmd shell input proc).1.flatten = proc.stderr ∧
    (check_output_with_stderr cmd shell input proc).2 =
      (if proc.returncode = 0 then Except.ok proc.stdout
       else Except.error ⟨proc.returncode, cmd, proc.stdout, proc.stderr⟩) := by
  unfold check_output_with_stderr
  split_ifs <;> simp_all

/-- C6: on every exit path — normal return or raise, whatever the block did —
the temporary file is absent from the final filesystem, and the block's
outcome is propagated unchanged. -/
theorem temporary_filename_cleanup {α : Type} (fs : FileSystem) (fresh : PyStr)
    (body : PyStr → FileSystem → FileSystem × Except PyError α) :
    fresh ∉ (temporary_filename fs fresh body).1 ∧
    (temporary_filename fs fresh body).2 = (body fresh (fresh :: fs)).2 := by
  unfold temporary_filename
  rcases h : body fresh (fresh :: fs) with ⟨fs2, res⟩
  dsimp only
  constructor
  · split_ifs with hmem
    · simp [List.mem_filter]
    · exact hmem
  · rfl

/-- C7: with a filename available — a path string or a stream with a name —
`extract_format` succeeds with the claimed format; with no filename it
raises. -/
theorem extract_format_correct (fn : PyStr) :
    extract_format (.path fn) = Except.ok (formatFromFilenameClaim fn) ∧
    extract_format (.stream (some fn)) = Except.ok (formatFromFilenameClaim fn) ∧
    isErr (extract_format (.stream none)) = true := by
  refine ⟨?_, ?_, rfl⟩ <;>
    · unfold extract_format formatFromFilenameClaim
      dsimp only
      split_ifs <;> rfl

/-- C8: a path is opened in the requested mode; a text stream is rejected
whenever a binary mode is requested, and a buffered binary stream is rejected
whenever a text (non-binary) mode is requested. -/
theorem maybe_open_mode_check (s mode : PyStr) :
    maybe_open (.path s) mode = Except.ok (.opened s mode) ∧
    maybe_open (.stream .textIOBase) mode =
      (if pyContains mode (pys "b") = true then
        Except.error (.valueError (pys "File expected to be opened in binary mode."))
      else Except.ok (.given .textIOBase)) ∧
    maybe_open (.stream .bufferedIOBase) mode =
      (if pyContains mode (pys "b") = true then
        Except.ok (.given .bufferedIOBase)
      else Except.error (.valueError (pys "File expected to be opened in text mode"))) := by
  refine ⟨rfl, ?_, ?_⟩ <;>
    · unfold maybe_open
      dsimp only
      split_ifs <;> simp_all

/-- C9: a filename containing no `.` at all is returned whole as the format
name; `extract_format` does not fail on it. -/
theorem extract_format_no_dot (fn : PyStr) (h : '.' ∉ fn) :
    extract_format (.path fn) = Except.ok fn := by
  have h1 : pyEndsWith fn (pys ".vg.json") = false := by
    cases he : pyEndsWith fn (pys ".vg.json")
    · rfl
    · exact absurd (mem_of_pyEndsWith he (by decide)) h
  have h2 : pyEndsWith fn (pys ".json") = false := by
    cases he : pyEndsWith fn (pys ".json")
    · rfl
    · exact absurd (mem_of_pyEndsWith he (by decide)) h
  unfold extract_format
  dsimp only
  rw [h1, h2, if_neg (by simp), if_neg (by simp), pySplitChar_of_not_mem h]
  rfl

/-- C9 witness: `"myfile"` is returned unchanged. -/
theorem extract_format_no_dot_witness :
    extract_format (.path (pys "myfile")) = Except.ok (pys "myfile") :=
  extract_format_no_dot (pys "myfile") (by decide)

/-- C10: a stream that is neither a `TextIOBase` nor a `BufferedIOBase`
instance is yielded unchanged without raising, for every requested mode. -/
theorem maybe_open_other_stream (mode : PyStr) :
    maybe_open (.stream .other) mode = Except.ok (.given .other) := by
  unfold maybe_open
  dsimp only
  split_ifs <;> simp_all
